import Mathlib

/-!
Verification of the headless render harness (src/headless_test.py).

The harness captures the child process's standard output as a byte buffer,
requires the sentinel literal BEGIN RAW IMAGE to occur exactly once
(printing the whole buffer, strictly UTF-8 decoded, when the count is 0,
then asserting the count is 1), splits the buffer at the first occurrence
of the sentinel, prints the bytes before it (strict UTF-8 decode), decodes
the bytes after it with base64.b64decode(..., validate=True), and
reconstructs an RGB image of the caller-supplied geometry with a raw
decoder at stride 0 and orientation -1.

Bytes are modelled as lists of natural numbers (each < 256 in practice; no
claim depends on the bound).  Console output is modelled explicitly: the
pipeline returns the list of byte strings successfully printed together
with an outcome.  Python exceptions are mapped to the specification's
error taxonomy: the failed assertion on the sentinel count is
protocolViolation, binascii.Error from the payload decode is
payloadCorrupt, the reconstruction size failure is payloadSizeMismatch,
and the strict-text decode failure (UnicodeDecodeError, which the
specification's taxonomy does not name) is unicodeDecodeError.
-/

namespace Tangerine

/-- The sentinel literal b"BEGIN RAW IMAGE" from src/headless_test.py line 15,
as a list of byte values. -/
def sentinel : List Nat := [66, 69, 71, 73, 78, 32, 82, 65, 87, 32, 73, 77, 65, 71, 69]

/-- Tests whether the first list is an initial segment of the second
(byte-string match at a position). -/
def startsWith : List Nat → List Nat → Bool
  | [], _ => true
  | _ :: _, [] => false
  | a :: as, b :: bs => a == b && startsWith as bs

/-- Fuel-driven core of countOccur.  Mirrors bytes.count: scan left to
right; on a match, skip past the whole needle (non-overlapping count). -/
def countOccurFuel (needle : List Nat) : Nat → List Nat → Nat
  | 0, _ => 0
  | _ + 1, [] => 0
  | fuel + 1, a :: rest =>
    if startsWith needle (a :: rest) then
      1 + countOccurFuel needle fuel (List.drop (needle.length - 1) rest)
    else
      countOccurFuel needle fuel rest

/-- Number of non-overlapping occurrences of needle in hay, as computed by
proc.stdout.count(img_header) on line 16 of src/headless_test.py. -/
def countOccur (needle hay : List Nat) : Nat := countOccurFuel needle hay.length hay

/-- Index of the first occurrence of needle in hay, as computed by
proc.stdout.index(img_header) on line 20 of src/headless_test.py
(none when absent; the source would raise ValueError, which is
unreachable after the count assertion). -/
def findIdx (needle : List Nat) : List Nat → Option Nat
  | [] => if startsWith needle [] then some 0 else none
  | a :: rest =>
    if startsWith needle (a :: rest) then some 0
    else (findIdx needle rest).map (fun i => i + 1)

/-- A UTF-8 continuation byte (0x80-0xBF). -/
def contB (c : Nat) : Bool := 128 ≤ c && c ≤ 191

/-- Modelled from the spec: strict UTF-8 validity as enforced by Python's
bytes.decode("utf-8") on lines 17 and 23 of src/headless_test.py (the
decoder itself is CPython library code, not in src/).  Standard RFC 3629
table: rejects invalid lead bytes, truncated sequences, overlong forms,
surrogates and code points above U+10FFFF.  The harness only observes
whether the decode raises, so validity is modelled as a Boolean. -/
def utf8Valid : List Nat → Bool
  | [] => true
  | c :: rest =>
    if c ≤ 127 then utf8Valid rest
    else
      match rest with
      | [] => false
      | c1 :: rest1 =>
        if 194 ≤ c && c ≤ 223 then contB c1 && utf8Valid rest1
        else
          match rest1 with
          | [] => false
          | c2 :: rest2 =>
            if c = 224 then (160 ≤ c1 && c1 ≤ 191) && contB c2 && utf8Valid rest2
            else if 225 ≤ c && c ≤ 236 then contB c1 && contB c2 && utf8Valid rest2
            else if c = 237 then (128 ≤ c1 && c1 ≤ 159) && contB c2 && utf8Valid rest2
            else if 238 ≤ c && c ≤ 239 then contB c1 && contB c2 && utf8Valid rest2
            else
              match rest2 with
              | [] => false
              | c3 :: rest3 =>
                if c = 240 then
                  (144 ≤ c1 && c1 ≤ 191) && contB c2 && contB c3 && utf8Valid rest3
                else if 241 ≤ c && c ≤ 243 then
                  contB c1 && contB c2 && contB c3 && utf8Valid rest3
                else if c = 244 then
                  (128 ≤ c1 && c1 ≤ 143) && contB c2 && contB c3 && utf8Valid rest3
                else false

/-- Value of a byte in the standard base64 alphabet (A-Z a-z 0-9 + /),
none for every byte outside the alphabet (including the pad byte 61). -/
def b64Val (c : Nat) : Option Nat :=
  if 65 ≤ c && c ≤ 90 then some (c - 65)
  else if 97 ≤ c && c ≤ 122 then some (c - 97 + 26)
  else if 48 ≤ c && c ≤ 57 then some (c - 48 + 52)
  else if c = 43 then some 62
  else if c = 47 then some 63
  else none

/-- Membership in the standard base64 alphabet. -/
def isB64Char (c : Nat) : Bool := (b64Val c).isSome

/-- Helper for validShape: the pad tail allowed by the validate pattern,
one or two pad bytes 61 and nothing after them. -/
def tailPad (s : List Nat) : Bool := s == [61] || s == [61, 61]

/-- Modelled from the spec: the validate=True check of base64.b64decode
(CPython library code, not in src/), a full match of the pattern: any
number of alphabet bytes followed by at most two pad bytes. -/
def validShape : List Nat → Bool
  | [] => true
  | c :: cs => if isB64Char c then validShape cs else tailPad (c :: cs)

/-- Modelled from the spec: the decoding loop of binascii.a2b_base64 in
non-strict mode (CPython library code, not in src/), which
base64.b64decode calls after the validate check.  State: remaining input,
quad position 0-3, pending bits of the current quad, and the count of pad
bytes seen at quad position at least 2.  A pad byte at quad position 0 or
1 is skipped; a pad byte at quad position 2 or 3 that completes the quad
to 4 ends the input successfully; bytes outside the alphabet are skipped
(the validate check has already excluded them); input ending at a nonzero
quad position is an error (none). -/
def a2b : List Nat → Nat → Nat → Nat → Option (List Nat)
  | [], qp, _, _ => if qp = 0 then some [] else none
  | c :: rest, qp, left, pads =>
    if c = 61 then
      if 2 ≤ qp ∧ 4 ≤ qp + (pads + 1) then some []
      else a2b rest qp left (if 2 ≤ qp then pads + 1 else pads)
    else
      match b64Val c with
      | none => a2b rest qp left pads
      | some v =>
        match qp with
        | 0 => a2b rest 1 v 0
        | 1 => (a2b rest 2 (v % 16) 0).map (fun r => (left * 4 + v / 16) :: r)
        | 2 => (a2b rest 3 (v % 4) 0).map (fun r => (left * 16 + v / 4) :: r)
        | _ => (a2b rest 0 0 0).map (fun r => (left * 64 + v) :: r)

/-- Modelled from the spec: base64.b64decode(s, validate=True) as called
on line 24 of src/headless_test.py (CPython library code, not in src/):
reject the input unless it matches the validate pattern, then run the
binascii decoding loop; none models a raised binascii.Error. -/
def b64decode (s : List Nat) : Option (List Nat) :=
  if validShape s then a2b s 0 0 0 else none

/-- Leading count of alphabet bytes, and length of the remainder.  For an
input accepted by validShape this is the (data, pad) split. -/
def b64Counts : List Nat → Nat × Nat
  | [] => (0, 0)
  | c :: cs =>
    if isB64Char c then ((b64Counts cs).1 + 1, (b64Counts cs).2)
    else (0, (c :: cs).length)

/-- Declarative characterization of the inputs b64decode accepts: the
validate pattern holds and, writing n for the number of alphabet bytes
and q for the number of pad bytes, either n is a multiple of 4 (pads, if
any, are ignored), or n mod 4 = 2 with exactly two pads, or n mod 4 = 3
with at least one pad. -/
def wellFormedB64 (s : List Nat) : Bool :=
  validShape s &&
    ((b64Counts s).1 % 4 == 0 ||
      ((b64Counts s).1 % 4 == 2 && (b64Counts s).2 == 2) ||
      ((b64Counts s).1 % 4 == 3 && (b64Counts s).2 != 0))

/-- Fuel-driven core of chunkRows: split a byte list into consecutive rows
of k bytes (the last row may be shorter; k = 0 yields the whole input as
one row, a case unreachable in the harness with positive width). -/
def chunkRowsFuel (k : Nat) : Nat → List Nat → List (List Nat)
  | _, [] => []
  | 0, x :: xs => [x :: xs]
  | fuel + 1, x :: xs =>
    if k = 0 then [x :: xs]
    else (x :: xs).take k :: chunkRowsFuel k fuel ((x :: xs).drop k)

/-- Split a byte list into consecutive rows of k bytes. -/
def chunkRows (k : Nat) (xs : List Nat) : List (List Nat) := chunkRowsFuel k xs.length xs

/-- Vertical mirror of a raster whose rows are k bytes long: the same
bytes with the row order reversed. -/
def verticalMirror (k : Nat) (raster : List Nat) : List Nat :=
  List.flatten ((chunkRows k raster).reverse)

/-- Error taxonomy of the pipeline.  protocolViolation is the failed
assertion on the sentinel count, payloadCorrupt is binascii.Error from
the payload decode, payloadSizeMismatch is the reconstruction failure on
a wrong byte count, and unicodeDecodeError is the strict-text decode
failure that the specification's taxonomy does not name. -/
inductive Err where
  | protocolViolation : Err
  | payloadCorrupt : Err
  | payloadSizeMismatch : Err
  | unicodeDecodeError : Err
deriving DecidableEq

/-- Modelled from the spec: PIL's Image.frombytes with the raw RGB decoder
as called on line 29 of src/headless_test.py (PIL is not in src/).  Per
spec section 4.3/4.4: the flat buffer must be exactly rowBytes x height
bytes where rowBytes is width x 3 when the stride is 0 and the stride
otherwise (any mismatch is a fatal size error, never truncation or
padding); each row keeps its first width x 3 bytes (trailing stride
padding is dropped); orientation -1 means the source rows are bottom-up
and are reversed during reconstruction, so the result is top-down. -/
def frombytes (width height : Nat) (data : List Nat) (stride : Nat) (orientation : Int) :
    Except Err (List Nat) :=
  let rowBytes := if stride = 0 then width * 3 else stride
  if data.length = rowBytes * height then
    let rows := (chunkRows rowBytes data).map (fun r => r.take (width * 3))
    Except.ok (List.flatten (if orientation = -1 then rows.reverse else rows))
  else Except.error Err.payloadSizeMismatch

/-- The frame split of lines 16-24 of src/headless_test.py in isolation:
if the sentinel occurs exactly once, everything strictly before the first
occurrence and everything strictly after it; otherwise none. -/
def splitFrame (stdout : List Nat) : Option (List Nat × List Nat) :=
  if countOccur sentinel stdout = 1 then
    (findIdx sentinel stdout).map
      (fun i => (stdout.take i, stdout.drop (i + sentinel.length)))
  else none

/-- The body of src/headless_test.py from line 15 on, for a captured
output buffer: count the sentinel; when the count is 0 print the whole
buffer strictly UTF-8 decoded (raising on malformed bytes); assert the
count is 1; split at the first occurrence; print the diagnostics strictly
UTF-8 decoded (raising on malformed bytes); base64-decode the payload
with validate=True; reconstruct the image.  Returns the byte strings
successfully printed and the outcome (the saved raster, or the error). -/
def runPipeline (w h : Nat) (stdout : List Nat) :
    List (List Nat) × Except Err (List Nat) :=
  if countOccur sentinel stdout = 0 then
    if utf8Valid stdout then ([stdout], Except.error Err.protocolViolation)
    else ([], Except.error Err.unicodeDecodeError)
  else if countOccur sentinel stdout ≠ 1 then
    ([], Except.error Err.protocolViolation)
  else
    let i := (findIdx sentinel stdout).getD 0
    let diagnostics := stdout.take i
    let payload := stdout.drop (i + sentinel.length)
    if utf8Valid diagnostics then
      match b64decode payload with
      | none => ([diagnostics], Except.error Err.payloadCorrupt)
      | some m => ([diagnostics], frombytes w h m 0 (-1))
    else ([], Except.error Err.unicodeDecodeError)

/-- Result of subprocess.run on line 14 of src/headless_test.py: the child
process exit status and its captured standard output. -/
structure ProcResult where
  returncode : Int
  stdout : List Nat

/-- The harness applied to a completed child process: src/headless_test.py
reads only proc.stdout after subprocess.run returns; proc.returncode is
never consulted. -/
def harnessRun (w h : Nat) (proc : ProcResult) :
    List (List Nat) × Except Err (List Nat) :=
  runPipeline w h proc.stdout

/-- A well-formed output buffer used in concrete counterexamples: the
sentinel immediately followed by the base64 payload AAAA, which decodes
to three zero bytes (one RGB pixel). -/
def goodBuf : List Nat := sentinel ++ [65, 65, 65, 65]

/-! Helper lemmas about the byte-string scan. -/

lemma startsWith_iff (n : List Nat) : ∀ hay : List Nat,
    startsWith n hay = true ↔ ∃ t, hay = n ++ t := by
  induction n with
  | nil => intro hay; simp [startsWith]
  | cons a as ih =>
    intro hay
    cases hay with
    | nil => simp [startsWith]
    | cons b bs =>
      simp only [startsWith, Bool.and_eq_true, beq_iff_eq, ih bs]
      constructor
      · rintro ⟨rfl, t, rfl⟩; exact ⟨t, rfl⟩
      · rintro ⟨t, ht⟩
        rw [List.cons_append] at ht
        cases ht
        exact ⟨rfl, t, rfl⟩

lemma exists_findIdx_of_countFuel_pos (needle : List Nat) :
    ∀ (fuel : Nat) (hay : List Nat), hay.length ≤ fuel →
      0 < countOccurFuel needle fuel hay →
      ∃ i, findIdx needle hay = some i ∧ startsWith needle (hay.drop i) = true := by
  intro fuel
  induction fuel with
  | zero =>
    intro hay _ hpos
    simp [countOccurFuel] at hpos
  | succ f ih =>
    intro hay hlen hpos
    match hay with
    | [] => simp [countOccurFuel] at hpos
    | a :: rest =>
      by_cases hsw : startsWith needle (a :: rest) = true
      · exact ⟨0, by simp [findIdx, hsw], by simpa using hsw⟩
      · have hpos2 : 0 < countOccurFuel needle f rest := by
          simpa [countOccurFuel, hsw] using hpos
        have hlen2 : rest.length ≤ f := by
          simp only [List.length_cons] at hlen; omega
        obtain ⟨j, hj, hsj⟩ := ih rest hlen2 hpos2
        exact ⟨j + 1, by simp [findIdx, hsw, hj], by simpa using hsj⟩

lemma exists_findIdx_of_countOccur_pos (needle hay : List Nat)
    (h : 0 < countOccur needle hay) :
    ∃ i, findIdx needle hay = some i ∧ startsWith needle (hay.drop i) = true :=
  exists_findIdx_of_countFuel_pos needle hay.length hay (le_refl _) h

/-! Helper lemmas about rows. -/

lemma chunkRowsFuel_nil (k fuel : Nat) : chunkRowsFuel k fuel [] = [] := by
  cases fuel <;> rfl

lemma flatten_chunkRowsFuel (k : Nat) : ∀ (fuel : Nat) (xs : List Nat),
    xs.length ≤ fuel → List.flatten (chunkRowsFuel k fuel xs) = xs := by
  intro fuel
  induction fuel with
  | zero =>
    intro xs hlen
    have hx : xs = [] := by
      cases xs with
      | nil => rfl
      | cons a t => simp at hlen
    subst hx; rfl
  | succ f ih =>
    intro xs hlen
    match xs with
    | [] => rfl
    | x :: t =>
      by_cases hk : k = 0
      · subst hk; simp [chunkRowsFuel]
      · have hdl : ((x :: t).drop k).length ≤ f := by
          rw [List.length_drop]
          simp only [List.length_cons] at hlen ⊢
          omega
        simp only [chunkRowsFuel, if_neg hk, List.flatten_cons, ih _ hdl,
          List.take_append_drop]

lemma flatten_chunkRows (k : Nat) (xs : List Nat) :
    List.flatten (chunkRows k xs) = xs :=
  flatten_chunkRowsFuel k xs.length xs (le_refl _)

lemma chunkRowsFuel_length_mem (k : Nat) (hk : 0 < k) : ∀ (fuel : Nat) (xs : List Nat),
    xs.length ≤ fuel → k ∣ xs.length →
    ∀ r ∈ chunkRowsFuel k fuel xs, r.length = k := by
  intro fuel
  induction fuel with
  | zero =>
    intro xs hlen _ r hr
    have hx : xs = [] := by
      cases xs with
      | nil => rfl
      | cons a t => simp at hlen
    subst hx; simp [chunkRowsFuel] at hr
  | succ f ih =>
    intro xs hlen hdvd r hr
    match xs with
    | [] => simp [chunkRowsFuel] at hr
    | x :: t =>
      have hk0 : k ≠ 0 := Nat.pos_iff_ne_zero.mp hk
      have hpos : 0 < (x :: t).length := by simp
      have hkle : k ≤ (x :: t).length := Nat.le_of_dvd hpos hdvd
      simp only [chunkRowsFuel, if_neg hk0, List.mem_cons] at hr
      rcases hr with hr | hr
      · subst hr
        rw [List.length_take]
        omega
      · have hdl : ((x :: t).drop k).length ≤ f := by
          rw [List.length_drop]
          simp only [List.length_cons] at hlen ⊢
          omega
        have hdd : k ∣ ((x :: t).drop k).length := by
          rw [List.length_drop]
          exact Nat.dvd_sub' hdvd dvd_rfl
        exact ih _ hdl hdd r hr

lemma chunkRows_length_mem (k : Nat) (hk : 0 < k) (xs : List Nat)
    (hdvd : k ∣ xs.length) : ∀ r ∈ chunkRows k xs, r.length = k :=
  chunkRowsFuel_length_mem k hk xs.length xs (le_refl _) hdvd

lemma chunkRowsFuel_flatten (k : Nat) (hk : 0 < k) : ∀ (L : List (List Nat)) (fuel : Nat),
    (List.flatten L).length ≤ fuel → (∀ r ∈ L, r.length = k) →
    chunkRowsFuel k fuel (List.flatten L) = L := by
  intro L
  induction L with
  | nil => intro fuel _ _; exact chunkRowsFuel_nil k fuel
  | cons r rest ih =>
    intro fuel hlen hall
    have hr : r.length = k := hall r (by simp)
    have hk0 : k ≠ 0 := Nat.pos_iff_ne_zero.mp hk
    have hrne : r ≠ [] := by
      intro hnil
      rw [hnil] at hr
      simp at hr
      omega
    match fuel with
    | 0 =>
      exfalso
      rw [List.flatten_cons, List.length_append] at hlen
      have hpos : 0 < r.length := List.length_pos.mpr hrne
      omega
    | f + 1 =>
      obtain ⟨c, rt, rfl⟩ := List.exists_cons_of_ne_nil hrne
      rw [List.flatten_cons] at hlen ⊢
      have e1 : List.take k ((c :: rt) ++ rest.flatten) = c :: rt :=
        List.take_left' hr
      have e2 : List.drop k ((c :: rt) ++ rest.flatten) = rest.flatten :=
        List.drop_left' hr
      have hlen2 : rest.flatten.length ≤ f := by
        rw [List.length_append, List.length_cons] at hlen
        rw [List.length_cons] at hr
        omega
      rw [List.cons_append]
      simp only [chunkRowsFuel, if_neg hk0]
      rw [← List.cons_append, e1, e2,
        ih f hlen2 (fun r hrm => hall r (List.mem_cons_of_mem _ hrm))]

lemma chunkRows_flatten (k : Nat) (hk : 0 < k) (L : List (List Nat))
    (hall : ∀ r ∈ L, r.length = k) :
    chunkRows k (List.flatten L) = L :=
  chunkRowsFuel_flatten k hk L (List.flatten L).length (le_refl _) hall

lemma map_take_self (k : Nat) (L : List (List Nat)) (hall : ∀ r ∈ L, r.length = k) :
    L.map (fun r => r.take k) = L := by
  induction L with
  | nil => rfl
  | cons r rest ih =>
    have hr : r.length = k := hall r (by simp)
    have hrt : r.take k = r := by rw [← hr, List.take_length]
    simp only [List.map_cons, hrt,
      ih (fun x hx => hall x (List.mem_cons_of_mem _ hx))]

lemma verticalMirror_length (k : Nat) (m : List Nat) :
    (verticalMirror k m).length = m.length := by
  unfold verticalMirror
  rw [List.length_flatten, List.map_reverse, List.sum_reverse,
    ← List.length_flatten, flatten_chunkRows]

lemma verticalMirror_involution (k : Nat) (hk : 0 < k) (m : List Nat)
    (hdvd : k ∣ m.length) :
    verticalMirror k (verticalMirror k m) = m := by
  unfold verticalMirror
  have hall : ∀ r ∈ (chunkRows k m).reverse, r.length = k := by
    intro r hr
    exact chunkRows_length_mem k hk m hdvd r (List.mem_reverse.mp hr)
  rw [chunkRows_flatten k hk _ hall, List.reverse_reverse, flatten_chunkRows]

/-! Helper lemmas about the modelled image reconstruction. -/

lemma frombytes_zero_stride (w h : Nat) (m : List Nat) (o : Int) :
    frombytes w h m 0 o =
      if m.length = w * 3 * h then
        Except.ok (List.flatten
          (if o = -1 then ((chunkRows (w * 3) m).map (fun r => r.take (w * 3))).reverse
           else (chunkRows (w * 3) m).map (fun r => r.take (w * 3))))
      else Except.error Err.payloadSizeMismatch := rfl

lemma frombytes_ok (w h : Nat) (m : List Nat) (hm : m.length = w * 3 * h) :
    frombytes w h m 0 (-1) = Except.ok (verticalMirror (w * 3) m) ∧
    frombytes w h m 0 1 = Except.ok m := by
  rw [frombytes_zero_stride, frombytes_zero_stride, if_pos hm, if_pos hm]
  rcases Nat.eq_zero_or_pos (w * 3) with hk | hk
  · have hm0 : m = [] := by
      rw [hk, Nat.zero_mul] at hm
      exact List.length_eq_zero.mp hm
    subst hm0
    rw [hk]
    constructor <;> rfl
  · have hdvd : w * 3 ∣ m.length := ⟨h, hm⟩
    have hall := chunkRows_length_mem (w * 3) hk m hdvd
    rw [map_take_self (w * 3) _ hall]
    constructor
    · rw [if_pos rfl]
      rfl
    · have hne : (1 : Int) ≠ -1 := by decide
      rw [if_neg hne, flatten_chunkRows]

lemma frombytes_ok_length (w h : Nat) (m r : List Nat) (o : Int)
    (hr : frombytes w h m 0 o = Except.ok r) : m.length = w * 3 * h := by
  by_contra hne
  rw [frombytes_zero_stride, if_neg hne] at hr
  exact Except.noConfusion hr

/-! Helper lemmas about the modelled base64 decoder. -/

lemma validShape_mem : ∀ (s : List Nat), validShape s = true →
    ∀ c ∈ s, isB64Char c = true ∨ c = 61 := by
  intro s
  induction s with
  | nil =>
    intro _ c hc
    simp at hc
  | cons a as ih =>
    intro hv c hc
    by_cases hb : isB64Char a = true
    · simp only [validShape, if_pos hb] at hv
      rcases List.mem_cons.mp hc with rfl | hc2
      · exact Or.inl hb
      · exact ih hv c hc2
    · simp only [validShape, if_neg hb, tailPad, Bool.or_eq_true, beq_iff_eq] at hv
      rcases hv with hv | hv <;> rw [hv] at hc <;> simp at hc <;> exact Or.inr hc

lemma validShape_decomp : ∀ (s : List Nat), validShape s = true →
    ∃ data pads, s = data ++ pads ∧ (∀ c ∈ data, isB64Char c = true) ∧
      (pads = [] ∨ pads = [61] ∨ pads = [61, 61]) := by
  intro s
  induction s with
  | nil =>
    intro _
    exact ⟨[], [], rfl, by simp, Or.inl rfl⟩
  | cons a as ih =>
    intro hv
    by_cases hb : isB64Char a = true
    · simp only [validShape, if_pos hb] at hv
      obtain ⟨data, pads, heq, hdata, hpads⟩ := ih hv
      refine ⟨a :: data, pads, by rw [heq, List.cons_append], ?_, hpads⟩
      intro c hc
      rcases List.mem_cons.mp hc with rfl | hc2
      · exact hb
      · exact hdata c hc2
    · simp only [validShape, if_neg hb, tailPad, Bool.or_eq_true, beq_iff_eq] at hv
      rcases hv with hv | hv
      · exact ⟨[], [61], by rw [hv]; rfl, by simp, Or.inr (Or.inl rfl)⟩
      · exact ⟨[], [61, 61], by rw [hv]; rfl, by simp, Or.inr (Or.inr rfl)⟩

lemma b64Counts_append : ∀ (data : List Nat), (∀ c ∈ data, isB64Char c = true) →
    ∀ tail : List Nat, (tail = [] ∨ ∃ c cs, tail = c :: cs ∧ isB64Char c = false) →
    b64Counts (data ++ tail) = (data.length, tail.length) := by
  intro data
  induction data with
  | nil =>
    intro _ tail ht
    rcases ht with rfl | ⟨c, cs, rfl, hc⟩
    · rfl
    · simp [b64Counts, hc]
  | cons a as ih =>
    intro hall tail ht
    have ha : isB64Char a = true := hall a (by simp)
    have ihs := ih (fun x hx => hall x (List.mem_cons_of_mem _ hx)) tail ht
    simp [b64Counts, ha, ihs]

lemma a2b_cons_data (c : Nat) (rest : List Nat) (qp left pads v : Nat)
    (hv : b64Val c = some v) (hc61 : c ≠ 61) :
    a2b (c :: rest) qp left pads =
      match qp with
      | 0 => a2b rest 1 v 0
      | 1 => (a2b rest 2 (v % 16) 0).map (fun r => (left * 4 + v / 16) :: r)
      | 2 => (a2b rest 3 (v % 4) 0).map (fun r => (left * 16 + v / 4) :: r)
      | _ => (a2b rest 0 0 0).map (fun r => (left * 64 + v) :: r) := by
  simp only [a2b, if_neg hc61, hv]

lemma a2b_cons_pad (rest : List Nat) (qp left pads : Nat) :
    a2b (61 :: rest) qp left pads =
      if 2 ≤ qp ∧ 4 ≤ qp + (pads + 1) then some []
      else a2b rest qp left (if 2 ≤ qp then pads + 1 else pads) := rfl

lemma a2b_append_none : ∀ (data t : List Nat) (qp left : Nat), qp < 4 →
    (∀ c ∈ data, isB64Char c = true) →
    (∀ left2, a2b t ((qp + data.length) % 4) left2 0 = none) →
    a2b (data ++ t) qp left 0 = none := by
  intro data
  induction data with
  | nil =>
    intro t qp left hqp _ ht
    have h := ht left
    rwa [List.length_nil, Nat.add_zero, Nat.mod_eq_of_lt hqp] at h
  | cons c ds ih =>
    intro t qp left hqp hall ht
    have hc : isB64Char c = true := hall c (by simp)
    have hv' : (b64Val c).isSome = true := hc
    obtain ⟨v, hv⟩ := Option.isSome_iff_exists.mp hv'
    have hc61 : c ≠ 61 := by
      intro h61
      rw [h61] at hc
      exact absurd hc (by decide)
    have hall2 : ∀ x ∈ ds, isB64Char x = true :=
      fun x hx => hall x (List.mem_cons_of_mem _ hx)
    have harg : ∀ j : Nat, (qp + (c :: ds).length) % 4 = (j + ds.length) % 4 →
        ∀ left2, a2b t ((j + ds.length) % 4) left2 0 = none := by
      intro j hj left2
      have h := ht left2
      rwa [hj] at h
    rw [List.cons_append, a2b_cons_data c (ds ++ t) qp left 0 v hv hc61]
    interval_cases qp
    · exact ih t 1 v (by omega) hall2
        (harg 1 (by simp only [List.length_cons]; omega))
    · rw [ih t 2 (v % 16) (by omega) hall2
        (harg 2 (by simp only [List.length_cons]; omega))]
      rfl
    · rw [ih t 3 (v % 4) (by omega) hall2
        (harg 3 (by simp only [List.length_cons]; omega))]
      rfl
    · rw [ih t 0 0 (by omega) hall2
        (harg 0 (by simp only [List.length_cons]; omega))]
      rfl

lemma b64decode_none_of_not_wellFormed (p : List Nat) (h : wellFormedB64 p = false) :
    b64decode p = none := by
  by_cases hv : validShape p = true
  · obtain ⟨data, pads, rfl, hdata, hpads⟩ := validShape_decomp p hv
    have hcounts : b64Counts (data ++ pads) = (data.length, pads.length) := by
      apply b64Counts_append data hdata
      rcases hpads with rfl | rfl | rfl
      · exact Or.inl rfl
      · exact Or.inr ⟨61, [], rfl, by decide⟩
      · exact Or.inr ⟨61, [61], rfl, by decide⟩
    simp only [wellFormedB64, hv, hcounts, Bool.true_and, Bool.or_eq_false_iff,
      Bool.and_eq_false_iff] at h
    simp only [b64decode, if_pos hv]
    rcases hpads with rfl | rfl | rfl
    · have h0 : data.length % 4 ≠ 0 := by
        intro h00
        simp [h00] at h
      apply a2b_append_none data [] 0 0 (by omega) hdata
      intro left2
      simp only [a2b]
      rw [if_neg]
      omega
    · have h03 : data.length % 4 ≠ 0 ∧ data.length % 4 ≠ 3 := by
        constructor <;> intro h00 <;> simp [h00] at h
      apply a2b_append_none data [61] 0 0 (by omega) hdata
      intro left2
      have h12 : (0 + data.length) % 4 = 1 ∨ (0 + data.length) % 4 = 2 := by omega
      rcases h12 with h12 | h12 <;> rw [h12] <;> simp [a2b]
    · have h1 : (0 + data.length) % 4 = 1 := by
        have h0 : data.length % 4 ≠ 0 := by intro h00; simp [h00] at h
        have h2 : data.length % 4 ≠ 2 := by intro h00; simp [h00] at h
        have h3 : data.length % 4 ≠ 3 := by intro h00; simp [h00] at h
        omega
      apply a2b_append_none data [61, 61] 0 0 (by omega) hdata
      intro left2
      rw [h1]
      simp [a2b]
  · simp only [b64decode]
    rw [if_neg hv]

/-! The framing lemma: how the pipeline behaves on a buffer of the form
diagnostics, sentinel, payload once the sentinel count is exactly one and
the first occurrence is the explicit one. -/

lemma runPipeline_framed (w h : Nat) (d p : List Nat)
    (hcount : countOccur sentinel (d ++ (sentinel ++ p)) = 1)
    (hidx : findIdx sentinel (d ++ (sentinel ++ p)) = some d.length) :
    runPipeline w h (d ++ (sentinel ++ p)) =
      if utf8Valid d then
        match b64decode p with
        | none => ([d], Except.error Err.payloadCorrupt)
        | some m => ([d], frombytes w h m 0 (-1))
      else ([], Except.error Err.unicodeDecodeError) := by
  have htake : (d ++ (sentinel ++ p)).take d.length = d := List.take_left d _
  have hdrop : (d ++ (sentinel ++ p)).drop (d.length + sentinel.length) = p := by
    rw [← List.append_assoc]
    exact List.drop_left' (List.length_append d sentinel)
  unfold runPipeline
  rw [hcount, hidx]
  simp only [Option.getD_some, htake, hdrop]
  norm_num

/-! The claims. -/

/-- C1, counterexample: the claim says a sentinel count other than 1 always
fails with a ProtocolViolation error.  On the buffer consisting of the
single byte 255 the count is 0, but the harness first prints the whole
buffer strictly UTF-8 decoded, which raises UnicodeDecodeError before the
count assertion is reached, so the failure is not the assertion failure
the specification calls ProtocolViolation. -/
theorem c1_counterexample :
    runPipeline 900 900 [255] = ([], Except.error Err.unicodeDecodeError) ∧
    Err.unicodeDecodeError ≠ Err.protocolViolation :=
  ⟨rfl, by decide⟩

/-- C1, amended: whenever the sentinel count is not exactly 1, processing
fails and no pixel raster is produced; the failure is the ProtocolViolation
assertion failure, except when the count is 0 and the buffer is not valid
UTF-8, in which case the strict decode of the buffer for printing fails
first with UnicodeDecodeError. -/
theorem c1_theorem (w h : Nat) (buf : List Nat)
    (hc : countOccur sentinel buf ≠ 1) :
    (runPipeline w h buf).snd =
      Except.error
        (if countOccur sentinel buf = 0 ∧ utf8Valid buf = false then
          Err.unicodeDecodeError
        else Err.protocolViolation) := by
  unfold runPipeline
  by_cases h0 : countOccur sentinel buf = 0
  · cases hu : utf8Valid buf with
    | true =>
      rw [if_pos h0]
      simp [h0]
    | false =>
      rw [if_pos h0]
      simp [h0]
  · rw [if_neg h0, if_pos hc, if_neg (fun hand => h0 hand.1)]

/-- C1, witness for the amended theorem at the concrete buffer consisting
of the single byte 255. -/
theorem c1_witness :
    countOccur sentinel [255] ≠ 1 ∧
    (runPipeline 1 1 [255]).snd =
      Except.error
        (if countOccur sentinel [255] = 0 ∧ utf8Valid [255] = false then
          Err.unicodeDecodeError
        else Err.protocolViolation) :=
  ⟨by decide, c1_theorem 1 1 [255] (by decide)⟩

/-- C2: when the sentinel occurs exactly once, the split returns the bytes
strictly before the first occurrence as diagnostics and the bytes strictly
after it as payload, with no trimming, and diagnostics, sentinel and
payload concatenate back to the original buffer exactly. -/
theorem c2_theorem (buf : List Nat) (h : countOccur sentinel buf = 1) :
    ∃ i, findIdx sentinel buf = some i ∧
      splitFrame buf = some (buf.take i, buf.drop (i + sentinel.length)) ∧
      buf.take i ++ (sentinel ++ buf.drop (i + sentinel.length)) = buf := by
  obtain ⟨i, hf, hs⟩ := exists_findIdx_of_countOccur_pos sentinel buf (by omega)
  obtain ⟨t, ht⟩ := (startsWith_iff sentinel (buf.drop i)).mp hs
  have hdt : buf.drop (i + sentinel.length) = t := by
    rw [← List.drop_drop, ht]
    exact List.drop_left sentinel t
  refine ⟨i, hf, ?_, ?_⟩
  · simp only [splitFrame, if_pos h, hf, Option.map_some']
  · rw [hdt, ← ht, List.take_append_drop]

/-- C2, witness at a concrete buffer with one diagnostics byte and a
two-byte payload. -/
theorem c2_witness :
    countOccur sentinel ([104] ++ (sentinel ++ [65, 66])) = 1 ∧
    ∃ i, findIdx sentinel ([104] ++ (sentinel ++ [65, 66])) = some i ∧
      splitFrame ([104] ++ (sentinel ++ [65, 66])) =
        some (([104] ++ (sentinel ++ [65, 66])).take i,
          ([104] ++ (sentinel ++ [65, 66])).drop (i + sentinel.length)) ∧
      ([104] ++ (sentinel ++ [65, 66])).take i ++
        (sentinel ++ ([104] ++ (sentinel ++ [65, 66])).drop (i + sentinel.length)) =
        [104] ++ (sentinel ++ [65, 66]) :=
  ⟨by decide, c2_theorem _ (by decide)⟩

/-- C3: for positive geometry and a buffer of the form diagnostics,
sentinel, payload in which the sentinel occurs exactly once (first at the
boundary), the diagnostics are text (valid UTF-8) and the payload decodes
to exactly width x height x 3 bytes, the pipeline succeeds and the
resulting raster is exactly width x height x 3 bytes. -/
theorem c3_theorem (w h : Nat) (d p m : List Nat) (_hw : 0 < w) (_hh : 0 < h)
    (hcount : countOccur sentinel (d ++ (sentinel ++ p)) = 1)
    (hidx : findIdx sentinel (d ++ (sentinel ++ p)) = some d.length)
    (hd : utf8Valid d = true)
    (hm : b64decode p = some m)
    (hlen : m.length = w * h * 3) :
    ∃ raster, (runPipeline w h (d ++ (sentinel ++ p))).snd = Except.ok raster ∧
      raster.length = w * h * 3 := by
  have hlen2 : m.length = w * 3 * h := by rw [hlen, Nat.mul_right_comm]
  obtain ⟨hfb, _⟩ := frombytes_ok w h m hlen2
  refine ⟨verticalMirror (w * 3) m, ?_, ?_⟩
  · rw [runPipeline_framed w h d p hcount hidx, if_pos hd, hm]
    show ([d], frombytes w h m 0 (-1)).snd = _
    rw [hfb]
  · rw [verticalMirror_length, hlen]

/-- C3, witness at width 1, height 1, empty diagnostics, and the payload
AAAA decoding to three zero bytes. -/
theorem c3_witness :
    b64decode [65, 65, 65, 65] = some [0, 0, 0] ∧
    ∃ raster,
      (runPipeline 1 1 ([] ++ (sentinel ++ [65, 65, 65, 65]))).snd =
        Except.ok raster ∧
      raster.length = 1 * 1 * 3 :=
  ⟨rfl, c3_theorem 1 1 [] [65, 65, 65, 65] [0, 0, 0] (by decide) (by decide)
    (by decide) (by decide) (by decide) rfl (by decide)⟩

/-- C4, counterexample: the claim says every payload with incorrect padding
fails with PayloadCorrupt.  The payload AAAA= (bytes 65 65 65 65 61) has a
pad byte that does not complete a four-character group, so its length is
not a multiple of 4 and its padding is incorrect under the strict
encoding; yet base64.b64decode(..., validate=True) silently accepts it
(the validate pattern matches, and the binascii loop skips a pad byte seen
at quad position 0), returning the three bytes of the complete groups. -/
theorem c4_counterexample :
    b64decode [65, 65, 65, 65, 61] = some [0, 0, 0] ∧
    [65, 65, 65, 65, 61].length % 4 ≠ 0 :=
  ⟨rfl, by decide⟩

/-- C4, amended: a payload is rejected (PayloadCorrupt) whenever it fails
the validate pattern (any byte outside the alphabet, including misplaced
pads) or, writing n for its alphabet-byte count and q for its pad count,
n mod 4 is 1, or n mod 4 is 2 without exactly two pads, or n mod 4 is 3
without at least one pad.  Certain incorrectly padded payloads outside
this set, such as stray pads after complete groups, are silently accepted
rather than rejected. -/
theorem c4_theorem (w h : Nat) (d p : List Nat)
    (hcount : countOccur sentinel (d ++ (sentinel ++ p)) = 1)
    (hidx : findIdx sentinel (d ++ (sentinel ++ p)) = some d.length)
    (hd : utf8Valid d = true)
    (hp : wellFormedB64 p = false) :
    b64decode p = none ∧
    (runPipeline w h (d ++ (sentinel ++ p))).snd = Except.error Err.payloadCorrupt := by
  have hn := b64decode_none_of_not_wellFormed p hp
  refine ⟨hn, ?_⟩
  rw [runPipeline_framed w h d p hcount hidx, if_pos hd, hn]

/-- C4, witness for the amended theorem at the one-byte payload A, whose
single alphabet byte leaves n mod 4 equal to 1. -/
theorem c4_witness :
    wellFormedB64 [65] = false ∧
    b64decode [65] = none ∧
    (runPipeline 1 1 ([] ++ (sentinel ++ [65]))).snd =
      Except.error Err.payloadCorrupt := by
  have hmain := c4_theorem 1 1 [] [65] (by decide) (by decide) (by decide) (by decide)
  exact ⟨by decide, hmain.1, hmain.2⟩

/-- C5: when the decoded payload byte count differs from
width x height x 3, reconstruction fails with PayloadSizeMismatch and no
raster is produced; the payload is never truncated or padded to fit. -/
theorem c5_theorem (w h : Nat) (d p m : List Nat)
    (hcount : countOccur sentinel (d ++ (sentinel ++ p)) = 1)
    (hidx : findIdx sentinel (d ++ (sentinel ++ p)) = some d.length)
    (hd : utf8Valid d = true)
    (hm : b64decode p = some m)
    (hne : m.length ≠ w * h * 3) :
    (runPipeline w h (d ++ (sentinel ++ p))).snd =
      Except.error Err.payloadSizeMismatch := by
  have hne2 : ¬m.length = w * 3 * h :=
    fun hx => hne (hx.trans (Nat.mul_right_comm w 3 h))
  rw [runPipeline_framed w h d p hcount hidx, if_pos hd, hm]
  show ([d], frombytes w h m 0 (-1)).snd = _
  rw [frombytes_zero_stride, if_neg hne2]

/-- C5, witness at the specification's concrete scenario: width 900,
height 900, and a payload decoding to only 3 bytes, far fewer than
900 x 900 x 3. -/
theorem c5_witness :
    b64decode [65, 65, 65, 65] = some [0, 0, 0] ∧
    [0, 0, 0].length ≠ 900 * 900 * 3 ∧
    (runPipeline 900 900 ([] ++ (sentinel ++ [65, 65, 65, 65]))).snd =
      Except.error Err.payloadSizeMismatch :=
  ⟨rfl, by decide, c5_theorem 900 900 [] [65, 65, 65, 65] [0, 0, 0]
    (by decide) (by decide) (by decide) rfl (by decide)⟩

/-- C6, counterexample: the claim says a non-zero child exit status is
surfaced as a fatal InvocationFailure.  The harness never reads
proc.returncode: on a process result with exit status 1 whose captured
output is a well-formed frame, the run succeeds and produces a raster, so
the non-zero exit status is silently absorbed. -/
theorem c6_counterexample :
    (ProcResult.mk 1 goodBuf).returncode ≠ 0 ∧
    (harnessRun 1 1 (ProcResult.mk 1 goodBuf)).snd = Except.ok [0, 0, 0] :=
  ⟨by decide, rfl⟩

/-- C6, amended: the harness's behaviour depends only on the captured
standard output; the child exit status is never consulted, so a non-zero
exit status is surfaced only indirectly, through the sentinel-count
assertion, when the failed child also failed to emit a framed image. -/
theorem c6_theorem (w h : Nat) (p q : ProcResult) (hs : p.stdout = q.stdout) :
    harnessRun w h p = harnessRun w h q := by
  unfold harnessRun
  rw [hs]

/-- C6, witness: two process results sharing stdout but with exit statuses
1 and 0 produce identical harness behaviour. -/
theorem c6_witness :
    harnessRun 1 1 (ProcResult.mk 1 [0]) = harnessRun 1 1 (ProcResult.mk 0 [0]) :=
  c6_theorem 1 1 (ProcResult.mk 1 [0]) (ProcResult.mk 0 [0]) rfl

/-- C7, counterexample: the claim says every sentinel-count violation
carries the full diagnostics decoded as text.  On a buffer with
diagnostics bytes 104 105 followed by two sentinel occurrences the count
is 2, and the harness fails the assertion without printing anything: the
printed list is empty, so no diagnostics are surfaced. -/
theorem c7_counterexample :
    countOccur sentinel ([104, 105] ++ (sentinel ++ sentinel)) = 2 ∧
    runPipeline 1 1 ([104, 105] ++ (sentinel ++ sentinel)) =
      ([], Except.error Err.protocolViolation) :=
  ⟨by decide, rfl⟩

/-- C7, amended: diagnostics are surfaced with the sentinel-count failure
only in the zero-count case, where the whole buffer (entirely diagnostics)
is printed when it is valid UTF-8; when the count is two or more the
assertion fails with nothing printed. -/
theorem c7_theorem (w h : Nat) (buf : List Nat) :
    (countOccur sentinel buf = 0 → utf8Valid buf = true →
      runPipeline w h buf = ([buf], Except.error Err.protocolViolation)) ∧
    (2 ≤ countOccur sentinel buf →
      runPipeline w h buf = ([], Except.error Err.protocolViolation)) := by
  constructor
  · intro h0 hu
    unfold runPipeline
    rw [if_pos h0, if_pos hu]
  · intro h2
    unfold runPipeline
    rw [if_neg (by omega), if_pos (by omega)]

/-- C7, witness for the amended theorem: the empty buffer (count 0, whole
buffer printed) and a double-sentinel buffer (count 2, nothing printed). -/
theorem c7_witness :
    runPipeline 1 1 [] = ([[]], Except.error Err.protocolViolation) ∧
    runPipeline 1 1 (sentinel ++ sentinel) =
      ([], Except.error Err.protocolViolation) :=
  ⟨(c7_theorem 1 1 []).1 rfl rfl,
    (c7_theorem 1 1 (sentinel ++ sentinel)).2 (by decide)⟩

/-- C8, counterexample: the claim says malformed diagnostics never crash
the splitter.  On a buffer whose diagnostics segment is the single
malformed byte 255 followed by a well-formed sentinel and valid payload,
the strict UTF-8 decode of the diagnostics raises UnicodeDecodeError and
processing aborts before the payload is ever decoded. -/
theorem c8_counterexample :
    utf8Valid [255] = false ∧
    runPipeline 1 1 ([255] ++ (sentinel ++ [65, 65, 65, 65])) =
      ([], Except.error Err.unicodeDecodeError) :=
  ⟨by decide, rfl⟩

/-- C8, amended: diagnostics are decoded as strict UTF-8, not permissively;
whenever the diagnostics segment of a well-framed buffer is not valid
UTF-8, the harness aborts with UnicodeDecodeError and prints nothing. -/
theorem c8_theorem (w h : Nat) (d p : List Nat)
    (hcount : countOccur sentinel (d ++ (sentinel ++ p)) = 1)
    (hidx : findIdx sentinel (d ++ (sentinel ++ p)) = some d.length)
    (hd : utf8Valid d = false) :
    runPipeline w h (d ++ (sentinel ++ p)) =
      ([], Except.error Err.unicodeDecodeError) := by
  rw [runPipeline_framed w h d p hcount hidx, if_neg (by simp [hd])]

/-- C8, witness for the amended theorem with diagnostics consisting of the
single malformed byte 255 and an empty payload. -/
theorem c8_witness :
    utf8Valid [255] = false ∧
    runPipeline 1 1 ([255] ++ (sentinel ++ [])) =
      ([], Except.error Err.unicodeDecodeError) :=
  ⟨by decide, c8_theorem 1 1 [255] [] (by decide) (by decide) (by decide)⟩

/-- C9: the orientation flag acts as a pure row reversal: reconstructing
the same decoded payload with top-down versus bottom-up orientation yields
rasters that are exact vertical mirrors of each other (and reconstruction
is a pure function, so reconstructing twice with the same orientation
trivially yields identical output). -/
theorem c9_theorem (w h : Nat) (m r1 r2 : List Nat)
    (h1 : frombytes w h m 0 1 = Except.ok r1)
    (h2 : frombytes w h m 0 (-1) = Except.ok r2) :
    r2 = verticalMirror (w * 3) r1 ∧ r1 = verticalMirror (w * 3) r2 := by
  have hm : m.length = w * 3 * h := frombytes_ok_length w h m r1 1 h1
  obtain ⟨hb2, hb1⟩ := frombytes_ok w h m hm
  have e1 : r1 = m := Except.ok.inj (h1.symm.trans hb1)
  have e2 : r2 = verticalMirror (w * 3) m := Except.ok.inj (h2.symm.trans hb2)
  rw [e1, e2]
  constructor
  · rfl
  · rcases Nat.eq_zero_or_pos (w * 3) with hk | hk
    · have hm0 : m = [] := by
        rw [hk, Nat.zero_mul] at hm
        exact List.length_eq_zero.mp hm
      subst hm0
      rfl
    · exact (verticalMirror_involution (w * 3) hk m ⟨h, hm⟩).symm

/-- C9, witness at a 1 by 2 image: the bottom-up reconstruction of the six
payload bytes is the vertical mirror of the top-down one and conversely. -/
theorem c9_witness :
    [4, 5, 6, 1, 2, 3] = verticalMirror 3 [1, 2, 3, 4, 5, 6] ∧
    [1, 2, 3, 4, 5, 6] = verticalMirror 3 [4, 5, 6, 1, 2, 3] :=
  c9_theorem 1 2 [1, 2, 3, 4, 5, 6] [1, 2, 3, 4, 5, 6] [4, 5, 6, 1, 2, 3] rfl rfl

/-- C10: a successful strict payload decode requires every payload byte to
be in the base64 alphabet or a pad byte; hence any whitespace or newline
byte anywhere after the sentinel makes the decode fail rather than being
skipped. -/
theorem c10_theorem (p : List Nat) (c : Nat) (hc : c ∈ p)
    (h1 : isB64Char c = false) (h2 : c ≠ 61) :
    b64decode p = none := by
  have hv : validShape p ≠ true := by
    intro hv
    rcases validShape_mem p hv c hc with hb | hb
    · rw [h1] at hb
      exact Bool.noConfusion hb
    · exact h2 hb
  simp only [b64decode]
  rw [if_neg hv]

/-- C10, witness at a payload with an embedded space byte 32, which is
outside the alphabet and is not a pad byte. -/
theorem c10_witness :
    32 ∈ [65, 32, 65, 65] ∧ isB64Char 32 = false ∧
    b64decode [65, 32, 65, 65] = none :=
  ⟨by decide, by decide,
    c10_theorem [65, 32, 65, 65] 32 (by decide) (by decide) (by decide)⟩

end Tangerine
